import Mathlib

/-!
Shallow embedding of `src/spysmac/analyzer.py` (class `Analyzer`).

Modelling conventions:
* Observed run costs, cutoffs and penalty factors are rationals (`ℚ`); the
  claims under study are about comparisons and arithmetic means, not about
  binary floating-point representation.
* `np.mean` over an empty list yields NaN in numpy; NaN is modelled as
  `Option.none`, a non-empty mean as `some (sum / length)`.
* The run-history lookup `get_cost_dict_for_config(self.global_rh, config)`
  is external to this file (it lives in `spysmac.utils.helpers`); its result
  for the configuration under study — a dictionary from run keys to costs —
  is passed to each embedded method directly, as the list of its items in
  iteration order.
* `pandas.DataFrame.to_html` and the `str(round(x, 3))` cell rendering are
  external rendering primitives; where a method's output depends on them,
  they are abstracted as function parameters of the embedding.
* Python truthiness of the scenario's `cutoff` field: `None` and `0` are
  falsy, every other number is truthy.
-/

namespace SpySMAC

/-- A key of the run-history's cost dictionary (a `RunKey`): the analyzer only
reads its `instance` attribute (`run.instance` / `k.instance` in the source),
named `inst` here because `instance` is a Lean keyword. `seed` keeps distinct
runs on the same instance distinct, as the seed/repetition does in a real
`RunKey`. -/
structure RunKey where
  inst : String
  seed : Nat
deriving DecidableEq

/-- The dictionary `get_cost_dict_for_config` returns for one configuration:
run keys paired with their observed costs, in iteration order. -/
abbrev CostDict := List (RunKey × ℚ)

/-- The scenario fields the two aggregation methods read: `cutoff`
(`none` embeds Python `None`), `train_insts` and `test_insts`. -/
structure Scenario where
  cutoff : Option ℚ
  train_insts : List String
  test_insts : List String

/-- The `Analyzer`'s state as far as the embedded methods read or write it:
the train/test-split flag, the scenario, and the cached performance table
(`None` before the first `create_performance_table` call). -/
structure Analyzer where
  train_test : Bool
  scenario : Scenario
  performance_table : Option String

/-- Python truthiness of `self.scenario.cutoff`: `None` and `0` are falsy. -/
def cutoffTruthy : Option ℚ → Bool
  | none => false
  | some c => c != 0

/-- One partition's (or, in non-split mode, the overall) `get_timeouts`
outcome: either the `("N", "A")` sentinel or a `(timeout, no_timeout)`
count pair. -/
inductive TimeoutCount where
  | na : TimeoutCount
  | counts (timeout no_timeout : Nat) : TimeoutCount
deriving DecidableEq

/-- The value `get_timeouts` returns: a single `TimeoutCount` when
`train_test` is false, a `(train, test)` pair of them when it is true. -/
inductive TimeoutsResult where
  | single (p : TimeoutCount) : TimeoutsResult
  | perSplit (train test : TimeoutCount) : TimeoutsResult
deriving DecidableEq

/-- One iteration of the split-mode loop of `get_timeouts`, acting on the
counter state `(train_timeout, train_no_timeout, test_timeout,
test_no_timeout)`. The loop body is two independent `if`/`elif` chains, one
per partition; each condition re-tests `cutoff` (truthy ↔ `c ≠ 0`, the
`None` case having already returned) exactly as the source does. -/
def split_step (c : ℚ) (sc : Scenario) (acc : Nat × Nat × Nat × Nat)
    (rc : RunKey × ℚ) : Nat × Nat × Nat × Nat :=
  let (trT, trN, teT, teN) := acc
  let tr :=
    if c ≠ 0 ∧ rc.1.inst ∈ sc.train_insts ∧ rc.2 ≥ c then (trT + 1, trN)
    else if c ≠ 0 ∧ rc.1.inst ∈ sc.train_insts ∧ rc.2 < c then (trT, trN + 1)
    else (trT, trN)
  let te :=
    if c ≠ 0 ∧ rc.1.inst ∈ sc.test_insts ∧ rc.2 ≥ c then (teT + 1, teN)
    else if c ≠ 0 ∧ rc.1.inst ∈ sc.test_insts ∧ rc.2 < c then (teT, teN + 1)
    else (teT, teN)
  (tr.1, tr.2, te.1, te.2)

/-- One iteration of the non-split loop of `get_timeouts`, acting on the
counter state `(timeout, no_timeout)`: `if cutoff and costs[run] >= cutoff`
increments `timeout`, the `else` branch increments `no_timeout`. -/
def plain_step (c : ℚ) (acc : Nat × Nat) (rc : RunKey × ℚ) : Nat × Nat :=
  if c ≠ 0 ∧ rc.2 ≥ c then (acc.1 + 1, acc.2) else (acc.1, acc.2 + 1)

/-- `Analyzer.get_timeouts`, on the cost dictionary fetched for the given
configuration. The source's `if not cutoff` (falsy: `None` or `0`) is split
into the `none` case of the match and the `c = 0` test. -/
def get_timeouts (a : Analyzer) (costs : CostDict) : TimeoutsResult :=
  if a.train_test then
    match a.scenario.cutoff with
    | none => .perSplit .na .na
    | some c =>
      if c = 0 then .perSplit .na .na
      else
        let r := costs.foldl (split_step c a.scenario) (0, 0, 0, 0)
        .perSplit (.counts r.1 r.2.1) (.counts r.2.2.1 r.2.2.2)
  else
    match a.scenario.cutoff with
    | none => .single .na
    | some c =>
      if c = 0 then .single .na
      else
        let r := costs.foldl (plain_step c) (0, 0)
        .single (.counts r.1 r.2)

/-- `np.mean` of a list of rationals; `none` stands for the NaN numpy
produces on an empty list. -/
def npMean (l : List ℚ) : Option ℚ :=
  if l.isEmpty then none else some (l.sum / l.length)

/-- The value `get_parX` returns: a single mean when `train_test` is false,
a `(train, test)` pair of means when it is true (`none` = NaN). -/
inductive ParXResult where
  | single (v : Option ℚ) : ParXResult
  | perSplit (train test : Option ℚ) : ParXResult
deriving DecidableEq

/-- The diagnostic note `get_parX` logs when the cutoff is falsy. -/
def parx_log_msg : String :=
  "Calculating penalized average runtime without cutoff..."

/-- The averaging half of `get_parX`, applied to the (possibly penalized)
`runs` list of `(instance, cost)` pairs: per-partition means in split mode,
one overall mean otherwise. -/
def parx_average (a : Analyzer) (runs : List (String × ℚ)) : ParXResult :=
  if a.train_test then
    .perSplit
      (npMean ((runs.filter fun r => decide (r.1 ∈ a.scenario.train_insts)).map (·.2)))
      (npMean ((runs.filter fun r => decide (r.1 ∈ a.scenario.test_insts)).map (·.2)))
  else
    .single (npMean (runs.map (·.2)))

/-- `Analyzer.get_parX`, on the cost dictionary fetched for the given
configuration. Returns the result together with the list of log messages
emitted (`self.logger.info` in the source). The source's
`if self.scenario.cutoff:` (truthy test) is split into the match on `None`
and the `c ≠ 0` test; when truthy, the comprehension penalizes each run:
raw cost when below the cutoff, else `cutoff * par`. -/
def get_parX (a : Analyzer) (costs : CostDict) (par : ℚ) :
    ParXResult × List String :=
  match a.scenario.cutoff with
  | some c =>
    if c ≠ 0 then
      let runs := costs.map fun k =>
        if k.2 < c then (k.1.inst, k.2) else (k.1.inst, c * par)
      (parx_average a runs, [])
    else
      (parx_average a (costs.map fun k => (k.1.inst, k.2)), [parx_log_msg])
  | none =>
    (parx_average a (costs.map fun k => (k.1.inst, k.2)), [parx_log_msg])

/-- A parameter value of a `Configuration`: Python values are heterogeneous
(a categorical parameter's choices may mix numbers and strings; an unset
parameter reads as `None`). `config_to_html` only ever tests them for
truthiness and hands them to the renderer. -/
inductive PVal where
  | noneV : PVal
  | num (q : ℚ) : PVal
  | str (s : String) : PVal
deriving DecidableEq

/-- Python truthiness of a parameter value: `None`, `0` and `""` are falsy. -/
def PVal.truthy : PVal → Bool
  | .noneV => false
  | .num q => q != 0
  | .str s => s != ""

/-- A `Configuration` as `config_to_html` reads it: an ordered mapping from
parameter name to value, embedded as its items in iteration order. -/
abbrev Config := List (String × PVal)

/-- Dictionary access `cfg[k]` (keys of a `Configuration` are unique);
a missing key reads as `None`. -/
def cfgGet (cfg : Config) (k : String) : PVal :=
  match cfg.lookup k with
  | some v => v
  | none => .noneV

/-- `Analyzer.config_to_html`, up to the opaque `DataFrame.to_html`
rendering: the index (the kept parameter names, i.e. the source's
`keys = [k for k in default.keys() if default[k] or incumbent[k]]`) and the
rows (`(default[k], incumbent[k])` pairs) handed to the renderer. -/
def config_to_html (default incumbent : Config) :
    List String × List (PVal × PVal) :=
  let keys := (default.map (·.1)).filter fun k =>
    (cfgGet default k).truthy || (cfgGet incumbent k).truthy
  (keys, keys.map fun k => (cfgGet default k, cfgGet incumbent k))

/-- `round(x, 3)` on a possibly-NaN mean (`none`, i.e. NaN, stays NaN). -/
def round3 (v : Option ℚ) : Option ℚ :=
  v.map fun q => ((round (q * 1000) : ℤ) : ℚ) / 1000

/-- The `"{}/{}".format(p[0], p[1])` cell of the performance table: `"N/A"`
for the sentinel pair, `"t/n"` for a count pair. -/
def TimeoutCount.cell : TimeoutCount → String
  | .na => "N" ++ "/" ++ "A"
  | .counts t n => toString t ++ "/" ++ toString n

/-- `def_timeout[0]` on a split-mode result: the train pair. (The non-split
constructor is never reached under the split-mode guard; its value is the
single pair.) -/
def TimeoutsResult.trainPair : TimeoutsResult → TimeoutCount
  | .perSplit tr _ => tr
  | .single p => p

/-- `def_timeout[1]` on a split-mode result: the test pair. -/
def TimeoutsResult.testPair : TimeoutsResult → TimeoutCount
  | .perSplit _ te => te
  | .single p => p

/-- The non-split `get_timeouts` pair. -/
def TimeoutsResult.pair : TimeoutsResult → TimeoutCount
  | .single p => p
  | .perSplit tr _ => tr

/-- `par[0]` on a split-mode `get_parX` result: the train mean. -/
def ParXResult.trainMean : ParXResult → Option ℚ
  | .perSplit tr _ => tr
  | .single v => v

/-- `par[1]` on a split-mode `get_parX` result: the test mean. -/
def ParXResult.testMean : ParXResult → Option ℚ
  | .perSplit _ te => te
  | .single v => v

/-- The non-split `get_parX` mean. -/
def ParXResult.mean : ParXResult → Option ℚ
  | .single v => v
  | .perSplit tr _ => tr

/-- `s.split(sep, maxsplit=1)[1]`: everything after the first occurrence of
`sep` (empty when `sep` does not occur, where Python would raise an
IndexError instead). -/
def splitAfterFirst (sep s : String) : String :=
  String.intercalate sep ((s.splitOn sep).drop 1)

/-- The custom two-level header `create_performance_table` splices in front
of the body of the rendered table in split mode. -/
def split_header_html : String :=
  "<table border=\"3\" class=\"dataframe\">\n" ++
  "  <col>\n" ++
  "  <colgroup span=\"2\"></colgroup>\n" ++
  "  <colgroup span=\"2\"></colgroup>\n" ++
  "  <thead>\n" ++
  "    <tr>\n" ++
  "      <td rowspan=\"2\"></td>\n" ++
  "      <th colspan=\"2\" scope=\"colgroup\">Default</th>\n" ++
  "      <th colspan=\"2\" scope=\"colgroup\">Incumbent</th>\n" ++
  "    </tr>\n" ++
  "    <tr>\n" ++
  "      <th scope=\"col\">Train</th>\n" ++
  "      <th scope=\"col\">Test</th>\n" ++
  "      <th scope=\"col\">Train</th>\n" ++
  "      <th scope=\"col\">Test</th>\n" ++
  "    </tr>\n" ++
  "</thead>\n"

/-- `Analyzer.create_performance_table`, on the cost dictionaries fetched
for the default and incumbent configurations. `to_html` abstracts
`DataFrame(data, index, columns).to_html()` (arguments: index, columns,
data rows) and `show_num` the `str(...)` rendering of a rounded numeric
cell; the numeric cells are rounded to 3 decimal places, the timeout cells
are `"t/n"` strings. In split mode the rendered table's header is replaced
by `split_header_html` (textual splice at the first `</thead>`). Returns
the table and the updated analyzer, whose `performance_table` field caches
the table. -/
def create_performance_table (a : Analyzer)
    (to_html : List String → List String → List (List String) → String)
    (show_num : Option ℚ → String)
    (def_costs inc_costs : CostDict) : String × Analyzer :=
  let def_timeout := get_timeouts a def_costs
  let inc_timeout := get_timeouts a inc_costs
  let def_par10 := (get_parX a def_costs 10).1
  let inc_par10 := (get_parX a inc_costs 10).1
  let def_par1 := (get_parX a def_costs 1).1
  let inc_par1 := (get_parX a inc_costs 1).1
  let table :=
    if a.train_test then
      let array :=
        [[show_num (round3 def_par10.trainMean), show_num (round3 def_par10.testMean),
          show_num (round3 inc_par10.trainMean), show_num (round3 inc_par10.testMean)],
         [show_num (round3 def_par1.trainMean), show_num (round3 def_par1.testMean),
          show_num (round3 inc_par1.trainMean), show_num (round3 inc_par1.testMean)],
         [def_timeout.trainPair.cell, def_timeout.testPair.cell,
          inc_timeout.trainPair.cell, inc_timeout.testPair.cell]]
      let t := to_html ["PAR10", "PAR1", "Timeouts"] ["Train", "Test", "Train", "Test"] array
      split_header_html ++ splitAfterFirst "</thead>" t
    else
      let array :=
        [[show_num (round3 def_par10.mean), show_num (round3 inc_par10.mean)],
         [show_num (round3 def_par1.mean), show_num (round3 inc_par1.mean)],
         [def_timeout.pair.cell, inc_timeout.pair.cell]]
      to_html ["PAR10", "PAR1", "Timeouts"] ["Default", "Incumbent"] array
  (table, { a with performance_table := some table })

/-- `Analyzer._split_table`: the OrderedDict is embedded as its `(key,
value)` items in order, and the dictionary lookup `table[keys[i]]` as
positional access (keys of an OrderedDict are unique); values are the
rendered cell contents. Builds one row per `i < len(keys) // 2` pairing
entry `i` with entry `i + len(keys) // 2`, keys bolded, and, when the
length is odd, a final row holding the last entry with the second key-value
pair blank. -/
def _split_table (table : List (String × String)) :
    List (String × String × String × String) :=
  let keys := table.map (·.1)
  let half_size := keys.length / 2
  let rows := (List.range half_size).map fun i =>
    let j := i + half_size
    ("<b>" ++ keys.getD i "" ++ "</b>", (table.getD i ("", "")).2,
     "<b>" ++ keys.getD j "" ++ "</b>", (table.getD j ("", "")).2)
  if keys.length % 2 == 1 then
    rows ++ [("<b>" ++ keys.getD (keys.length - 1) "" ++ "</b>",
              (table.getD (keys.length - 1) ("", "")).2, "", "")]
  else rows

/-! ## Spec-side characterizations -/

/-- The per-run contribution the spec describes for a (truthy) cutoff `c`:
exactly `cutoff * par` for a run costing at or above the cutoff, the raw
cost below it. -/
def contribution (c par cost : ℚ) : ℚ := if cost ≥ c then c * par else cost

/-- The spec's description of the unpenalized `get_parX` outcome:
per-partition (split mode) or overall arithmetic mean of the raw costs. -/
def raw_mean_result (a : Analyzer) (costs : CostDict) : ParXResult :=
  if a.train_test then
    .perSplit
      (npMean ((costs.filter fun k => decide (k.1.inst ∈ a.scenario.train_insts)).map (·.2)))
      (npMean ((costs.filter fun k => decide (k.1.inst ∈ a.scenario.test_insts)).map (·.2)))
  else
    .single (npMean (costs.map (·.2)))

/-- The spec's description of the penalized `get_parX` outcome: per-partition
(split mode) or overall arithmetic mean of the per-run `contribution`s. -/
def penalized_mean_result (a : Analyzer) (c par : ℚ) (costs : CostDict) : ParXResult :=
  if a.train_test then
    .perSplit
      (npMean ((costs.filter fun k => decide (k.1.inst ∈ a.scenario.train_insts)).map
        fun k => contribution c par k.2))
      (npMean ((costs.filter fun k => decide (k.1.inst ∈ a.scenario.test_insts)).map
        fun k => contribution c par k.2))
  else
    .single (npMean (costs.map fun k => contribution c par k.2))

/-- Runs of the cost dictionary attributed to the instance set `insts` and
classified as timeouts (cost at or above the cutoff `c`). -/
def countTO (insts : List String) (c : ℚ) (costs : CostDict) : Nat :=
  costs.countP fun rc => decide (rc.1.inst ∈ insts ∧ c ≤ rc.2)

/-- Runs of the cost dictionary attributed to the instance set `insts` and
classified as no-timeouts (cost below the cutoff `c`). -/
def countOK (insts : List String) (c : ℚ) (costs : CostDict) : Nat :=
  costs.countP fun rc => decide (rc.1.inst ∈ insts ∧ rc.2 < c)

/-- The analyzer with its scenario's cutoff replaced. -/
def with_cutoff (a : Analyzer) (c : Option ℚ) : Analyzer :=
  { a with scenario := { a.scenario with cutoff := c } }

/-! ## Helper lemmas -/

lemma filtered_costs_snd (costs : CostDict) (g : RunKey × ℚ → ℚ)
    (insts : List String) :
    ((costs.map fun k => (k.1.inst, g k)).filter fun r => decide (r.1 ∈ insts)).map (·.2)
      = (costs.filter fun k => decide (k.1.inst ∈ insts)).map g := by
  induction costs with
  | nil => rfl
  | cons h t ih =>
    by_cases hm : h.1.inst ∈ insts <;> simp [hm, ih]

lemma parx_average_map (a : Analyzer) (costs : CostDict) (g : RunKey × ℚ → ℚ) :
    parx_average a (costs.map fun k => (k.1.inst, g k)) =
      if a.train_test then
        .perSplit
          (npMean ((costs.filter fun k => decide (k.1.inst ∈ a.scenario.train_insts)).map g))
          (npMean ((costs.filter fun k => decide (k.1.inst ∈ a.scenario.test_insts)).map g))
      else
        .single (npMean (costs.map g)) := by
  unfold parx_average
  rw [filtered_costs_snd, filtered_costs_snd, List.map_map]
  rfl

lemma penalize_eq_contribution (c par : ℚ) (k : RunKey × ℚ) :
    (if k.2 < c then (k.1.inst, k.2) else (k.1.inst, c * par))
      = (k.1.inst, contribution c par k.2) := by
  unfold contribution
  by_cases hk : k.2 < c
  · rw [if_pos hk, if_neg (not_le.mpr hk)]
  · rw [if_neg hk, if_pos (not_lt.mp hk)]

lemma get_parX_eq (a : Analyzer) (costs : CostDict) (par : ℚ) :
    get_parX a costs par =
      match a.scenario.cutoff with
      | some c =>
        if c ≠ 0 then
          (parx_average a (costs.map fun k => (k.1.inst, contribution c par k.2)), [])
        else
          (parx_average a (costs.map fun k => (k.1.inst, k.2)), [parx_log_msg])
      | none =>
        (parx_average a (costs.map fun k => (k.1.inst, k.2)), [parx_log_msg]) := by
  unfold get_parX
  cases a.scenario.cutoff with
  | none => rfl
  | some c =>
    by_cases h0 : c ≠ 0
    · simp only [h0, if_true, reduceIte]
      rw [List.map_congr_left fun k _ => penalize_eq_contribution c par k]
    · simp [h0]

lemma split_foldl (c : ℚ) (sc : Scenario) (h0 : c ≠ 0) (costs : CostDict) :
    ∀ tT tN eT eN : Nat,
      costs.foldl (split_step c sc) (tT, tN, eT, eN) =
        (tT + countTO sc.train_insts c costs, tN + countOK sc.train_insts c costs,
         eT + countTO sc.test_insts c costs, eN + countOK sc.test_insts c costs) := by
  induction costs with
  | nil => intro tT tN eT eN; simp [countTO, countOK]
  | cons rc rest ih =>
    intro tT tN eT eN
    rw [List.foldl_cons]
    rcases lt_or_le rc.2 c with hlt | hle
    · have hnle : ¬ c ≤ rc.2 := not_le.mpr hlt
      by_cases htr : rc.1.inst ∈ sc.train_insts <;>
        by_cases hte : rc.1.inst ∈ sc.test_insts <;>
        simp [split_step, h0, htr, hte, hlt, hnle, ih, countTO, countOK,
          List.countP_cons] <;> omega
    · have hnlt : ¬ rc.2 < c := not_lt.mpr hle
      by_cases htr : rc.1.inst ∈ sc.train_insts <;>
        by_cases hte : rc.1.inst ∈ sc.test_insts <;>
        simp [split_step, h0, htr, hte, hle, hnlt, ih, countTO, countOK,
          List.countP_cons] <;> omega

lemma plain_foldl (c : ℚ) (h0 : c ≠ 0) (costs : CostDict) :
    ∀ t n : Nat,
      costs.foldl (plain_step c) (t, n) =
        (t + costs.countP fun rc => decide (c ≤ rc.2),
         n + costs.countP fun rc => decide (rc.2 < c)) := by
  induction costs with
  | nil => intro t n; simp
  | cons rc rest ih =>
    intro t n
    rw [List.foldl_cons]
    rcases lt_or_le rc.2 c with hlt | hle
    · have hnle : ¬ c ≤ rc.2 := not_le.mpr hlt
      simp [plain_step, h0, hlt, hnle, ih, List.countP_cons]
      omega
    · have hnlt : ¬ rc.2 < c := not_lt.mpr hle
      simp [plain_step, h0, hle, hnlt, ih, List.countP_cons]
      omega

lemma get_timeouts_split_eq (a : Analyzer) (costs : CostDict) (c : ℚ)
    (ht : a.train_test = true) (hc : a.scenario.cutoff = some c) (h0 : c ≠ 0) :
    get_timeouts a costs =
      .perSplit
        (.counts (countTO a.scenario.train_insts c costs)
                 (countOK a.scenario.train_insts c costs))
        (.counts (countTO a.scenario.test_insts c costs)
                 (countOK a.scenario.test_insts c costs)) := by
  unfold get_timeouts
  rw [ht, hc]
  simp only [if_true, reduceIte, h0]
  rw [split_foldl c a.scenario h0 costs 0 0 0 0]
  simp

lemma get_timeouts_plain_eq (a : Analyzer) (costs : CostDict) (c : ℚ)
    (ht : a.train_test = false) (hc : a.scenario.cutoff = some c) (h0 : c ≠ 0) :
    get_timeouts a costs =
      .single (.counts (costs.countP fun rc => decide (c ≤ rc.2))
                       (costs.countP fun rc => decide (rc.2 < c))) := by
  unfold get_timeouts
  rw [ht, hc]
  simp only [if_false, reduceIte, h0, Bool.false_eq_true]
  rw [plain_foldl c h0 costs 0 0]
  simp

lemma filter_nil_of_not_mem (costs : CostDict) (insts : List String)
    (h : ∀ rc ∈ costs, rc.1.inst ∉ insts) :
    (costs.filter fun k => decide (k.1.inst ∈ insts)) = [] := by
  rw [List.filter_eq_nil_iff]
  intro k hk
  simp [h k hk]

/-! ## Concrete fixtures used by the witnesses -/

def wTrainInsts : List String := ["i1", "ib"]

def wTestInsts : List String := ["i2", "ib"]

def wCosts : CostDict :=
  [(⟨"i1", 0⟩, 3), (⟨"i1", 1⟩, 12), (⟨"i2", 0⟩, 20), (⟨"ib", 0⟩, 5)]

def wPlain : Analyzer :=
  { train_test := false,
    scenario := { cutoff := some 10, train_insts := wTrainInsts, test_insts := wTestInsts },
    performance_table := none }

def wSplit : Analyzer := { wPlain with train_test := true }

def wNoCutoff : Analyzer :=
  { wPlain with scenario := { wPlain.scenario with cutoff := none } }

def wZeroCutoff : Analyzer :=
  { wPlain with scenario := { wPlain.scenario with cutoff := some 0 } }

def wTestOnlyCosts : CostDict := [(⟨"i2", 0⟩, 20)]

/-! ## Claims -/

/-- C1: with a configured (truthy) cutoff, `get_parX` computes the
arithmetic mean in which every run costing at or above the cutoff
contributes exactly `cutoff * par` — regardless of its actual cost — and
every run below the cutoff contributes its raw cost; per partition in split
mode, overall otherwise. (A present-but-zero cutoff is falsy in Python and
takes the no-penalty path instead; that edge is the zero-cutoff claim.) -/
theorem parX_penalizes (a : Analyzer) (costs : CostDict) (c par : ℚ)
    (hc : a.scenario.cutoff = some c) (h0 : c ≠ 0) :
    (get_parX a costs par).1 = penalized_mean_result a c par costs := by
  simp only [get_parX_eq, hc, h0, ne_eq, not_false_eq_true, if_true, reduceIte]
  rw [parx_average_map]
  rfl

/-- Witness for `parX_penalizes`: a concrete non-split analyzer with cutoff
10 and four runs. -/
theorem parX_penalizes_witness :
    (get_parX wPlain wCosts 10).1 = penalized_mean_result wPlain 10 10 wCosts :=
  parX_penalizes wPlain wCosts 10 10 rfl (by norm_num)

/-- C3: with no cutoff configured, `get_timeouts` returns the `("N","A")`
sentinel: a single sentinel pair in non-split mode, the sentinel duplicated
for train and test in split mode. -/
theorem timeouts_na_without_cutoff (a : Analyzer) (costs : CostDict)
    (hc : a.scenario.cutoff = none) :
    get_timeouts a costs =
      if a.train_test then .perSplit .na .na else .single .na := by
  cases ht : a.train_test <;> simp [get_timeouts, hc, ht]

/-- Witness for `timeouts_na_without_cutoff` at a concrete analyzer whose
scenario holds no cutoff. -/
theorem timeouts_na_witness :
    get_timeouts wNoCutoff wCosts =
      if wNoCutoff.train_test then .perSplit .na .na else .single .na :=
  timeouts_na_without_cutoff wNoCutoff wCosts rfl

/-- C4: in split mode, a partition with zero matching runs yields `none` —
the NaN of numpy's empty mean — for that partition, rather than an error:
the embedded computation is total and the empty filter gives `npMean [] =
none`. -/
theorem parX_nan_on_empty_partition (a : Analyzer) (costs : CostDict) (par : ℚ)
    (ht : a.train_test = true) :
    ((∀ rc ∈ costs, rc.1.inst ∉ a.scenario.train_insts) →
        ((get_parX a costs par).1).trainMean = none)
  ∧ ((∀ rc ∈ costs, rc.1.inst ∉ a.scenario.test_insts) →
        ((get_parX a costs par).1).testMean = none) := by
  constructor
  · intro h
    have hfil := filter_nil_of_not_mem costs a.scenario.train_insts h
    rw [get_parX_eq]
    cases a.scenario.cutoff with
    | none => simp [parx_average_map, ht, ParXResult.trainMean, hfil, npMean]
    | some c =>
      by_cases h0 : c = 0 <;>
        simp [h0, parx_average_map, ht, ParXResult.trainMean, hfil, npMean]
  · intro h
    have hfil := filter_nil_of_not_mem costs a.scenario.test_insts h
    rw [get_parX_eq]
    cases a.scenario.cutoff with
    | none => simp [parx_average_map, ht, ParXResult.testMean, hfil, npMean]
    | some c =>
      by_cases h0 : c = 0 <;>
        simp [h0, parx_average_map, ht, ParXResult.testMean, hfil, npMean]

/-- Witness for `parX_nan_on_empty_partition`: a split-mode analyzer whose
only run is on a test instance, so the train mean is NaN. -/
theorem parX_nan_witness :
    ((get_parX wSplit wTestOnlyCosts 10).1).trainMean = none :=
  (parX_nan_on_empty_partition wSplit wTestOnlyCosts 10 rfl).1 (by decide)

/-- C5: with no cutoff configured, `get_parX` uses the raw cost of every run
(no penalty) and emits the diagnostic log note, so the result equals the
unpenalized arithmetic mean of the raw costs (per partition in split mode,
overall otherwise). -/
theorem parX_no_cutoff_raw_mean (a : Analyzer) (costs : CostDict) (par : ℚ)
    (hc : a.scenario.cutoff = none) :
    (get_parX a costs par).1 = raw_mean_result a costs
  ∧ (get_parX a costs par).2 = [parx_log_msg] := by
  constructor
  · simp only [get_parX_eq, hc]
    rw [parx_average_map]
    rfl
  · simp [get_parX_eq, hc]

/-- Witness for `parX_no_cutoff_raw_mean` at a concrete analyzer whose
scenario holds no cutoff. -/
theorem parX_no_cutoff_witness :
    (get_parX wNoCutoff wCosts 10).1 = raw_mean_result wNoCutoff wCosts
  ∧ (get_parX wNoCutoff wCosts 10).2 = [parx_log_msg] :=
  parX_no_cutoff_raw_mean wNoCutoff wCosts 10 rfl

/-- C8: `create_performance_table` caches on the analyzer exactly the markup
string it returns, whatever the analyzer, renderers and cost dictionaries. -/
theorem performance_table_cached (a : Analyzer)
    (to_html : List String → List String → List (List String) → String)
    (show_num : Option ℚ → String) (def_costs inc_costs : CostDict) :
    ((create_performance_table a to_html show_num def_costs inc_costs).2).performance_table
      = some (create_performance_table a to_html show_num def_costs inc_costs).1 := rfl

/-- C10: a present-but-zero cutoff is treated identically to an absent one,
both methods testing the cutoff for truthiness: `get_timeouts` returns the
`("N","A")` sentinel, `get_parX` applies no penalty (raw-cost means), and
both methods agree — log note included — with the same analyzer whose
cutoff is `None`. -/
theorem zero_cutoff_like_absent (a : Analyzer) (costs : CostDict) (par : ℚ)
    (hc : a.scenario.cutoff = some 0) :
    get_timeouts a costs = get_timeouts (with_cutoff a none) costs
  ∧ get_parX a costs par = get_parX (with_cutoff a none) costs par
  ∧ get_timeouts a costs =
      (if a.train_test then .perSplit .na .na else .single .na)
  ∧ (get_parX a costs par).1 = raw_mean_result a costs := by
  refine ⟨?_, ?_, ?_, ?_⟩
  · cases ht : a.train_test <;> simp [get_timeouts, with_cutoff, hc, ht]
  · simp [get_parX_eq, hc, with_cutoff, parx_average]
  · cases ht : a.train_test <;> simp [get_timeouts, hc, ht]
  · simp only [get_parX_eq, hc, reduceIte, ne_eq, not_true_eq_false]
    rw [parx_average_map]
    rfl

/-- Witness for `zero_cutoff_like_absent` at a concrete analyzer whose
scenario's cutoff is the number 0. -/
theorem zero_cutoff_witness :
    get_timeouts wZeroCutoff wCosts =
      (if wZeroCutoff.train_test then .perSplit .na .na else .single .na) :=
  (zero_cutoff_like_absent wZeroCutoff wCosts 10 rfl).2.2.1

/-- C2: in split mode with a configured (truthy) cutoff, `get_timeouts`
attributes each run to a partition by membership of its instance in the
scenario's train/test instance sets: the two pairs count exactly the runs
whose instance lies in the respective set, a run whose instance is in
neither set contributes to neither pair, and a run whose instance is in
both sets is counted in both pairs. -/
theorem timeouts_split_by_membership (a : Analyzer) (costs : CostDict) (c : ℚ)
    (ht : a.train_test = true) (hc : a.scenario.cutoff = some c) (h0 : c ≠ 0) :
    get_timeouts a costs =
      .perSplit
        (.counts (countTO a.scenario.train_insts c costs)
                 (countOK a.scenario.train_insts c costs))
        (.counts (countTO a.scenario.test_insts c costs)
                 (countOK a.scenario.test_insts c costs))
  ∧ (∀ r : RunKey × ℚ, r.1.inst ∉ a.scenario.train_insts →
        r.1.inst ∉ a.scenario.test_insts →
        get_timeouts a (r :: costs) = get_timeouts a costs)
  ∧ (∀ r : RunKey × ℚ, r.1.inst ∈ a.scenario.train_insts →
        r.1.inst ∈ a.scenario.test_insts → c ≤ r.2 →
        get_timeouts a (r :: costs) =
          .perSplit
            (.counts (countTO a.scenario.train_insts c costs + 1)
                     (countOK a.scenario.train_insts c costs))
            (.counts (countTO a.scenario.test_insts c costs + 1)
                     (countOK a.scenario.test_insts c costs)))
  ∧ (∀ r : RunKey × ℚ, r.1.inst ∈ a.scenario.train_insts →
        r.1.inst ∈ a.scenario.test_insts → r.2 < c →
        get_timeouts a (r :: costs) =
          .perSplit
            (.counts (countTO a.scenario.train_insts c costs)
                     (countOK a.scenario.train_insts c costs + 1))
            (.counts (countTO a.scenario.test_insts c costs)
                     (countOK a.scenario.test_insts c costs + 1))) := by
  refine ⟨get_timeouts_split_eq a costs c ht hc h0, ?_, ?_, ?_⟩
  · intro r h1 h2
    rw [get_timeouts_split_eq a (r :: costs) c ht hc h0,
        get_timeouts_split_eq a costs c ht hc h0]
    simp [countTO, countOK, List.countP_cons, h1, h2]
  · intro r h1 h2 hge
    rw [get_timeouts_split_eq a (r :: costs) c ht hc h0]
    have hnlt : ¬ r.2 < c := not_lt.mpr hge
    simp [countTO, countOK, List.countP_cons, h1, h2, hge, hnlt]
  · intro r h1 h2 hlt
    rw [get_timeouts_split_eq a (r :: costs) c ht hc h0]
    have hnle : ¬ c ≤ r.2 := not_le.mpr hlt
    simp [countTO, countOK, List.countP_cons, h1, h2, hlt, hnle]

/-- Witness for `timeouts_split_by_membership`: the concrete split-mode
analyzer with cutoff 10; `wCosts` holds a run on instance `"ib"`, which lies
in both partitions. -/
theorem timeouts_split_witness :
    get_timeouts wSplit wCosts =
      .perSplit
        (.counts (countTO wSplit.scenario.train_insts 10 wCosts)
                 (countOK wSplit.scenario.train_insts 10 wCosts))
        (.counts (countTO wSplit.scenario.test_insts 10 wCosts)
                 (countOK wSplit.scenario.test_insts 10 wCosts)) :=
  (timeouts_split_by_membership wSplit wCosts 10 rfl rfl (by norm_num)).1

/-- C6: in non-split mode with a configured (truthy) cutoff: if every run's
cost is below the cutoff, `get_timeouts` returns `(0, total_run_count)`; if
every run's cost is at or above it, it returns `(total_run_count, 0)`. -/
theorem timeouts_all_below_or_above (a : Analyzer) (costs : CostDict) (c : ℚ)
    (ht : a.train_test = false) (hc : a.scenario.cutoff = some c) (h0 : c ≠ 0) :
    ((∀ rc ∈ costs, rc.2 < c) →
        get_timeouts a costs = .single (.counts 0 costs.length))
  ∧ ((∀ rc ∈ costs, c ≤ rc.2) →
        get_timeouts a costs = .single (.counts costs.length 0)) := by
  constructor
  · intro h
    rw [get_timeouts_plain_eq a costs c ht hc h0]
    have h1 : (costs.countP fun rc => decide (c ≤ rc.2)) = 0 :=
      List.countP_eq_zero.mpr fun rc hrc => by simp [not_le.mpr (h rc hrc)]
    have h2 : (costs.countP fun rc => decide (rc.2 < c)) = costs.length :=
      List.countP_eq_length.mpr fun rc hrc => by simp [h rc hrc]
    rw [h1, h2]
  · intro h
    rw [get_timeouts_plain_eq a costs c ht hc h0]
    have h1 : (costs.countP fun rc => decide (c ≤ rc.2)) = costs.length :=
      List.countP_eq_length.mpr fun rc hrc => by simp [h rc hrc]
    have h2 : (costs.countP fun rc => decide (rc.2 < c)) = 0 :=
      List.countP_eq_zero.mpr fun rc hrc => by simp [not_lt.mpr (h rc hrc)]
    rw [h1, h2]

def wLowCosts : CostDict := [(⟨"i1", 0⟩, 3), (⟨"i2", 0⟩, 4)]

/-- Witness for `timeouts_all_below_or_above`: two runs, both below the
cutoff 10, give `(0, 2)`. -/
theorem timeouts_all_below_witness :
    get_timeouts wPlain wLowCosts = .single (.counts 0 wLowCosts.length) :=
  (timeouts_all_below_or_above wPlain wLowCosts 10 rfl rfl (by norm_num)).1 (by decide)

/-- C7 (amended): `config_to_html` keeps exactly those parameter names for
which at least one of the two configurations has a truthy (non-falsy)
value; a parameter falsy (`0`/empty/`None`) in both is excluded from the
rendered rows, and a parameter differing between the two is included
provided at least one of its two values is truthy. (The qualification is
forced: two values may differ and both be falsy, e.g. `0` versus `""`; see
the counterexample.) -/
theorem config_keeps_nonfalsy_params (default incumbent : Config) (k : String)
    (hk : k ∈ default.map (·.1)) :
    (k ∈ (config_to_html default incumbent).1 ↔
        ((cfgGet default k).truthy || (cfgGet incumbent k).truthy) = true)
  ∧ ((cfgGet default k).truthy = false → (cfgGet incumbent k).truthy = false →
        k ∉ (config_to_html default incumbent).1)
  ∧ (cfgGet default k ≠ cfgGet incumbent k →
        ((cfgGet default k).truthy || (cfgGet incumbent k).truthy) = true →
        k ∈ (config_to_html default incumbent).1) := by
  have hmem : k ∈ (config_to_html default incumbent).1 ↔
      ((cfgGet default k).truthy || (cfgGet incumbent k).truthy) = true := by
    simp [config_to_html, List.mem_filter, hk]
  refine ⟨hmem, ?_, ?_⟩
  · intro h1 h2
    rw [hmem]
    simp [h1, h2]
  · intro _ h
    exact hmem.mpr h

def cexDefault : Config := [("p", .num 0)]

def cexIncumbent : Config := [("p", .str "")]

/-- C7 counterexample: the parameter `"p"` has value `0` in the default and
`""` in the incumbent — the two configurations differ at `"p"` — yet both
values are falsy, so `config_to_html` drops `"p"` from the rendered rows,
against the claim's unqualified "a parameter differing between the two is
included". -/
theorem config_differing_param_dropped :
    cfgGet cexDefault "p" ≠ cfgGet cexIncumbent "p"
  ∧ "p" ∈ cexDefault.map (·.1)
  ∧ "p" ∉ (config_to_html cexDefault cexIncumbent).1 :=
  ⟨by decide, by decide, by decide⟩

def wDefaultConfig : Config := [("p", .num 0), ("q", .num 1)]

def wIncumbentConfig : Config := [("p", .num 0), ("q", .num 2)]

/-- Witness for `config_keeps_nonfalsy_params`: parameter `"q"` differs
between the two configurations, one value is truthy, and it is kept. -/
theorem config_keeps_witness :
    "q" ∈ (config_to_html wDefaultConfig wIncumbentConfig).1 :=
  (config_keeps_nonfalsy_params wDefaultConfig wIncumbentConfig "q"
    (by decide)).2.2 (by decide) (by decide)

lemma getD_fst (l : List (String × String)) (i : Nat) :
    (l.map (·.1)).getD i "" = (l.getD i ("", "")).1 := by
  simp only [List.getD_eq_getElem?_getD, List.getElem?_map]
  cases l[i]? <;> rfl

lemma getD_range_map {α : Type} (n : Nat) (g : Nat → α) (i : Nat) (d : α)
    (hi : i < n) : ((List.range n).map g).getD i d = g i := by
  simp [List.getD_eq_getElem?_getD, List.getElem?_map, List.getElem?_range hi]

lemma getD_append_left {α : Type} (l₁ l₂ : List α) (i : Nat) (d : α)
    (hi : i < l₁.length) : (l₁ ++ l₂).getD i d = l₁.getD i d := by
  simp [List.getD_eq_getElem?_getD, List.getElem?_append_left hi]

lemma getD_append_at_length {α : Type} (l₁ : List α) (x : α) (i : Nat) (d : α)
    (hi : i = l₁.length) : (l₁ ++ [x]).getD i d = x := by
  subst hi
  simp [List.getD_eq_getElem?_getD, List.getElem?_append_right (le_refl _)]

lemma split_table_length (table : List (String × String)) :
    (_split_table table).length = table.length / 2 + table.length % 2 := by
  unfold _split_table
  rcases Nat.mod_two_eq_zero_or_one table.length with h | h <;>
    simp [h, List.length_map]

lemma split_table_row (table : List (String × String)) (i : Nat)
    (hi : i < table.length / 2) :
    (_split_table table).getD i ("", "", "", "") =
      ("<b>" ++ (table.getD i ("", "")).1 ++ "</b>", (table.getD i ("", "")).2,
       "<b>" ++ (table.getD (i + table.length / 2) ("", "")).1 ++ "</b>",
       (table.getD (i + table.length / 2) ("", "")).2) := by
  unfold _split_table
  simp only [List.length_map]
  cases h2 : (table.length % 2 == 1)
  · rw [if_neg (by simp [h2])]
    rw [getD_range_map _ _ _ _ hi, getD_fst, getD_fst]
  · rw [if_pos rfl]
    rw [getD_append_left _ _ _ _ (by simpa using hi)]
    rw [getD_range_map _ _ _ _ hi, getD_fst, getD_fst]

lemma split_table_last (table : List (String × String))
    (hodd : table.length % 2 = 1) :
    (_split_table table).getD (table.length / 2) ("", "", "", "") =
      ("<b>" ++ (table.getD (table.length - 1) ("", "")).1 ++ "</b>",
       (table.getD (table.length - 1) ("", "")).2, "", "") := by
  unfold _split_table
  simp only [List.length_map]
  rw [if_pos (by simp [hodd])]
  rw [getD_append_at_length _ _ _ _ (by simp), getD_fst]

def ex5 : List (String × String) :=
  [("a", "1"), ("b", "2"), ("c", "3"), ("d", "4"), ("e", "5")]

def ex4 : List (String × String) :=
  [("a", "1"), ("b", "2"), ("c", "3"), ("d", "4")]

/-- C9: `_split_table` splits `n` ordered key-value pairs into `n / 2` rows
pairing entry `i` with entry `i + n / 2` (keys bolded), plus, for odd `n`,
one final row holding the last entry with the second key-value pair blank;
in particular 5 pairs give 2 full rows plus 1 blank-second row, and 4 pairs
give exactly 2 full rows. -/
theorem split_table_pairs_rows (table : List (String × String)) :
    ((_split_table table).length = table.length / 2 + table.length % 2)
  ∧ (∀ i, i < table.length / 2 →
      (_split_table table).getD i ("", "", "", "") =
        ("<b>" ++ (table.getD i ("", "")).1 ++ "</b>", (table.getD i ("", "")).2,
         "<b>" ++ (table.getD (i + table.length / 2) ("", "")).1 ++ "</b>",
         (table.getD (i + table.length / 2) ("", "")).2))
  ∧ (table.length % 2 = 1 →
      (_split_table table).getD (table.length / 2) ("", "", "", "") =
        ("<b>" ++ (table.getD (table.length - 1) ("", "")).1 ++ "</b>",
         (table.getD (table.length - 1) ("", "")).2, "", ""))
  ∧ _split_table ex5 =
      [("<b>a</b>", "1", "<b>c</b>", "3"), ("<b>b</b>", "2", "<b>d</b>", "4"),
       ("<b>e</b>", "5", "", "")]
  ∧ _split_table ex4 =
      [("<b>a</b>", "1", "<b>c</b>", "3"), ("<b>b</b>", "2", "<b>d</b>", "4")] :=
  ⟨split_table_length table, fun i hi => split_table_row table i hi,
   fun h => split_table_last table h, by decide, by decide⟩

end SpySMAC
